import Mathlib

/-!
Verification of the Capstone malware-scan pipeline.

Shallow embedding of the two source files:
  * src/lambda-scan/handler.py  (S3-triggered scan Lambda)
  * src/backend/app.py          (Flask intake / status API)

The DynamoDB table is modelled as a list of rows; each row carries the
attributes written by the code.  Timestamps are modelled as naturals
(the code uses ISO-8601 strings whose lexicographic order agrees with
chronological order, which is what the DynamoDB sort key relies on).
External effects (S3 download, freshclam, the clamscan subprocess) are
modelled by explicit outcome parameters, and the handler additionally
returns the trace of effects it attempted, in order.
-/

/-- One entry of the scan_events list: a (timestamp, message) pair. -/
structure Event where
  timestamp : Nat
  message : String
deriving DecidableEq

/-- One DynamoDB item, with the attributes the code reads and writes.
file_id is the partition key and scan_timestamp the sort key. -/
structure ScanRow where
  file_id : String
  scan_timestamp : Nat
  file_name : String
  s3_bucket : String
  s3_key : String
  scan_status : String
  scan_detail : String
  scan_events : List Event
  created_at : Nat
  updated_at : Nat
deriving DecidableEq

/-- Fold step selecting the row with the larger sort key (scan_timestamp). -/
def pickLater (a : Option ScanRow) (r : ScanRow) : Option ScanRow :=
  match a with
  | none => some r
  | some b => if b.scan_timestamp < r.scan_timestamp then some r else some b

/-- table.query(KeyConditionExpression=Key("file_id").eq(fid),
ScanIndexForward=False, Limit=1): the row of the partition with the
maximum sort key, if any.  Used by append_event, by the verdict write in
lambda_handler, and by the primary path of /api/scan-status. -/
def queryLatest (tbl : List ScanRow) (fid : String) : Option ScanRow :=
  (tbl.filter (fun r => r.file_id = fid)).foldl pickLater none

/-- table.update_item keyed on (file_id, scan_timestamp): rewrites the
row with that primary key in place.  (The code only calls it with a key
it just read back from the table, so the upsert case never arises.) -/
def updateRow (tbl : List ScanRow) (fid : String) (ts : Nat)
    (f : ScanRow → ScanRow) : List ScanRow :=
  tbl.map (fun r => if r.file_id = fid ∧ r.scan_timestamp = ts then f r else r)

/-- handler.append_event: query the latest row for file_id; if none,
log a warning and write nothing; otherwise SET updated_at and
list_append one entry to scan_events.  It never touches scan_status. -/
def append_event (tbl : List ScanRow) (fid : String) (now : Nat)
    (msg : String) : List ScanRow :=
  match queryLatest tbl fid with
  | none => tbl
  | some item =>
    updateRow tbl fid item.scan_timestamp fun r =>
      { r with updated_at := now, scan_events := r.scan_events ++ [⟨now, msg⟩] }

/-- Python str.split("/") on the character list: splitting on the slash
separator, empty string yielding [""].  (Structural recursion so that it
evaluates inside the kernel.) -/
def splitSlash (s : String) : List String :=
  (s.data.foldr
    (fun c acc =>
      match acc with
      | [] => [[c]]
      | cur :: rest => if c = '/' then [] :: cur :: rest else (c :: cur) :: rest)
    [[]]).map String.mk

/-- Python "/".join(parts). -/
def joinSlash : List String → String
  | [] => ""
  | [a] => a
  | a :: b :: rest => a ++ "/" ++ joinSlash (b :: rest)

/-- Key parsing in lambda_handler: parts = key.split("/");
a key matches the convention iff len(parts) >= 3 and parts[0] == "uploads",
in which case file_id = parts[1] and file_name = "/".join(parts[2:]). -/
def parseKey (key : String) : Option (String × String) :=
  match splitSlash key with
  | p0 :: p1 :: rest =>
    if p0 = "uploads" ∧ 1 ≤ rest.length then
      some (p1, joinSlash rest)
    else none
  | _ => none

/-- Result of a completed clamscan subprocess: exit code, stdout, stderr. -/
structure EngineResult where
  rc : Int
  stdout : String
  stderr : String
deriving DecidableEq

/-- Outcome of attempting the clamscan subprocess: either it ran to
completion, or the attempt raised (binary missing, timeout, ...). -/
inductive ExecOutcome where
  | ok (r : EngineResult)
  | failure (msg : String)
deriving DecidableEq

/-- The exit-code-to-verdict mapping inside run_clamscan (handler.py
lines 157-167), producing (status, detail). -/
def clamVerdict (rc : Int) : String × String :=
  if rc = 0 then ("CLEAN", "No malware detected by ClamAV.")
  else if rc = 1 then ("INFECTED", "Malware detected by ClamAV.")
  else ("ERROR", "ClamAV error (exit code " ++ toString rc ++ ").")

/-- handler.run_clamscan: subprocess.run is not wrapped in try/except,
so an execution failure propagates as an exception; otherwise the exit
code is mapped to (status, detail, stdout, stderr). -/
def run_clamscan (x : ExecOutcome) :
    Except String (String × String × String × String) :=
  match x with
  | .failure msg => .error msg
  | .ok r => .ok ((clamVerdict r.rc).1, (clamVerdict r.rc).2, r.stdout, r.stderr)

/-- Python s[:2048] on a str: the first 2048 characters. -/
def truncate2048 (s : String) : String :=
  String.mk (s.data.take 2048)

/-- The three events appended together with the final verdict write
(handler.py lines 246-261); stdout/stderr are truncated to 2048 chars. -/
def verdictEvents (now : Nat) (status detail stdout stderr : String) :
    List Event :=
  [⟨now, "Lambda scan completed with status " ++ status ++ ". " ++ detail⟩,
   ⟨now, "ClamAV stdout: " ++ truncate2048 stdout⟩,
   ⟨now, "ClamAV stderr: " ++ truncate2048 stderr⟩]

/-- The verdict write in lambda_handler (lines 228-285): query the latest
row for file_id; if none, log a warning and write nothing; otherwise SET
scan_status, scan_detail, updated_at and list_append the three events. -/
def writeVerdict (tbl : List ScanRow) (fid : String) (now : Nat)
    (status detail stdout stderr : String) : List ScanRow :=
  match queryLatest tbl fid with
  | none => tbl
  | some item =>
    updateRow tbl fid item.scan_timestamp fun r =>
      { r with scan_status := status, scan_detail := detail, updated_at := now,
               scan_events := r.scan_events ++ verdictEvents now status detail stdout stderr }

/-- The `if file_id: append_event(...)` pattern of the handler. -/
def maybeAppend (tbl : List ScanRow) (fid : Option String) (now : Nat)
    (msg : String) : List ScanRow :=
  match fid with
  | some f => append_event tbl f now msg
  | none => tbl

/-- The (bucket, key) carried by one S3 event record. -/
structure RecordInput where
  bucket : Option String
  key : Option String
deriving DecidableEq

/-- Outcomes of the external calls one record processing can make. -/
structure WorldOutcomes where
  download : Except String Unit
  freshclam : Except String Unit
  clamscan : ExecOutcome

/-- Externally visible effects attempted by the handler, in order. -/
inductive Effect where
  | download (bucket key : String)
  | freshclamRun
  | engineInvoked
deriving DecidableEq

/-- One element of the results list returned by lambda_handler. -/
inductive ResultEntry where
  | ok (bucket key : String) (file_id file_name : Option String)
      (status detail : String)
  | err (msg : String)
deriving DecidableEq

/-- Processing of one S3 event record by lambda_handler (lines 180-304):
returns the new table, the results entries appended, and the trace of
external effects attempted.  Mirrors the source control flow: missing
bucket/key continues with no entry; a non-matching key only logs (file_id
stays None) and processing continues; the download happens before any
ledger access; the whole body is wrapped in a per-record try/except that
turns any raised exception into an error entry. -/
def processRecord (tbl : List ScanRow) (rec : RecordInput)
    (w : WorldOutcomes) (now : Nat) :
    List ScanRow × List ResultEntry × List Effect :=
  match rec.bucket, rec.key with
  | some bucket, some key =>
    if bucket = "" ∨ key = "" then (tbl, [], [])
    else
      let parsed := parseKey key
      let fid := parsed.map Prod.fst
      let fname := parsed.map Prod.snd
      match w.download with
      | .error e => (tbl, [.err e], [.download bucket key])
      | .ok _ =>
        let tbl1 := maybeAppend tbl fid now "Lambda scanner started for this file."
        match w.freshclam with
        | .error e =>
          (maybeAppend tbl1 fid now ("Failed to update ClamAV DB: " ++ e),
           [.err e], [.download bucket key, .freshclamRun])
        | .ok _ =>
          match run_clamscan w.clamscan with
          | .error e =>
            (tbl1, [.err e],
             [.download bucket key, .freshclamRun, .engineInvoked])
          | .ok (status, detail, stdout, stderr) =>
            ((match fid with
              | some f => writeVerdict tbl1 f now status detail stdout stderr
              | none => tbl1),
             [.ok bucket key fid fname status detail],
             [.download bucket key, .freshclamRun, .engineInvoked])
  | _, _ => (tbl, [], [])

/-- lambda_handler over a batch of records: each record is processed
independently and its entries are appended to the results list. -/
def lambda_handler (tbl : List ScanRow)
    (recs : List (RecordInput × WorldOutcomes)) (now : Nat) :
    List ScanRow × List ResultEntry :=
  recs.foldl
    (fun acc rw =>
      let out := processRecord acc.1 rw.1 rw.2 now
      (out.1, acc.2 ++ out.2.1))
    (tbl, [])

/-! ## Backend (src/backend/app.py) -/

/-- Externally visible effects attempted by /api/upload, in order. -/
inductive UploadEffect where
  | s3Upload (key : String)
  | putPending (fid : String) (ts : Nat)
deriving DecidableEq

/-- Success/failure of the two external calls /api/upload can make. -/
structure UploadOutcome where
  s3ok : Bool
  dbok : Bool
deriving DecidableEq

/-- HTTP response of the backend endpoints (body fields the claims use). -/
inductive UploadResponse where
  | err (msg : String) (code : Nat)
  | ok (fid name status detail : String)
deriving DecidableEq

/-- table.put_item: replaces the item with the same primary key if one
exists, else inserts. -/
def putItem (tbl : List ScanRow) (row : ScanRow) : List ScanRow :=
  (tbl.filter fun r =>
    ¬ (r.file_id = row.file_id ∧ r.scan_timestamp = row.scan_timestamp))
  ++ [row]

/-- The initial PENDING item written by upload_file (app.py lines 121-141). -/
def pendingRow (fid name bucket : String) (now : Nat) : ScanRow :=
  { file_id := fid
    scan_timestamp := now
    file_name := name
    s3_bucket := bucket
    s3_key := "uploads/" ++ fid ++ "/" ++ name
    scan_status := "PENDING"
    scan_detail := "Waiting for Lambda scanner to run."
    scan_events := [⟨now, "File uploaded to S3 and scan record created."⟩]
    created_at := now
    updated_at := now }

/-- app.upload_file (/api/upload): validates config and input, uploads
the bytes to S3 (line 105), and only afterwards writes the PENDING scan
record (line 121).  fid stands for the freshly generated uuid4, now for
utcnow.  Returns the new table, the trace of external effects attempted
in order, and the HTTP response. -/
def upload_file (tbl : List ScanRow) (uploadBucket : Option String)
    (fileField : Option String) (fid : String) (now : Nat)
    (o : UploadOutcome) : List ScanRow × List UploadEffect × UploadResponse :=
  match uploadBucket with
  | none =>
    (tbl, [], .err "UPLOAD_BUCKET env var is not configured on backend service." 500)
  | some bucket =>
    if bucket = "" then
      (tbl, [], .err "UPLOAD_BUCKET env var is not configured on backend service." 500)
    else
      match fileField with
      | none => (tbl, [], .err "No file part in request. Expected field name file." 400)
      | some name =>
        if name = "" then (tbl, [], .err "Empty filename - please select a file." 400)
        else
          let key := "uploads/" ++ fid ++ "/" ++ name
          if o.s3ok = false then
            (tbl, [.s3Upload key], .err "Failed to upload file to S3." 500)
          else if o.dbok = false then
            (tbl, [.s3Upload key, .putPending fid now],
             .err "Failed to write scan record to DynamoDB." 500)
          else
            (putItem tbl (pendingRow fid name bucket now),
             [.s3Upload key, .putPending fid now],
             .ok fid name "PENDING" "File uploaded. Waiting for scan to start.")

/-- The record lookup performed by /api/scan-status (app.py lines 184-219):
primary path, unless the query raises (queryFails), is the indexed
descending limit-1 query; the fallback is a full table scan filtered on
file_id, from which items[0] — the first row in storage order — is taken. -/
def scanStatusLookup (tbl : List ScanRow) (fid : String)
    (queryFails : Bool) : Option ScanRow :=
  let items := if queryFails then [] else (queryLatest tbl fid).toList
  let items2 := if items.isEmpty then tbl.filter (fun r => r.file_id = fid) else items
  items2.head?

/-- app.scan_status (/api/scan-status): parameter validation, the
two-path lookup, 404 when nothing is found, else the fields of the row
found (events are already (timestamp, message) pairs in this model). -/
def scan_status (tbl : List ScanRow) (fidParam : Option String)
    (tableConfigured : Bool) (queryFails : Bool) : UploadResponse :=
  match fidParam with
  | none => .err "Missing required query parameter file_id." 400
  | some fid =>
    if fid = "" then .err "Missing required query parameter file_id." 400
    else if tableConfigured = false then
      .err "SCAN_TABLE env var is not configured on backend service." 500
    else
      match scanStatusLookup tbl fid queryFails with
      | none => .err ("No record found for file_id=" ++ fid) 404
      | some item => .ok item.file_id item.file_name item.scan_status item.scan_detail

/-! ## Ledger writes as operations (for the append-only invariant) -/

/-- The two ledger mutations the Lambda performs on existing records:
the append_event update and the verdict update.  Both are DynamoDB
update_item calls whose scan_events change is
list_append(if_not_exists(scan_events, :empty), :ev). -/
inductive LedgerOp where
  | start (fid : String) (now : Nat) (msg : String)
  | verdict (fid : String) (now : Nat) (status detail stdout stderr : String)

/-- Interpretation of one ledger operation. -/
def applyOp (tbl : List ScanRow) : LedgerOp → List ScanRow
  | .start fid now msg => append_event tbl fid now msg
  | .verdict fid now status detail stdout stderr =>
    writeVerdict tbl fid now status detail stdout stderr

/-- Interpretation of a sequence of ledger operations. -/
def applyOps (tbl : List ScanRow) (ops : List LedgerOp) : List ScanRow :=
  ops.foldl applyOp tbl

/-- Row evolution: same primary key, and the earlier scan_events list is
a prefix of the later one (nothing removed, reordered or overwritten). -/
def rowExtends (r₁ r₂ : ScanRow) : Prop :=
  r₂.file_id = r₁.file_id ∧ r₂.scan_timestamp = r₁.scan_timestamp ∧
  ∃ t, r₂.scan_events = r₁.scan_events ++ t

/-- Bool-valued substring test on character lists (needle, haystack). -/
def startsWithChars : List Char → List Char → Bool
  | [], _ => true
  | _ :: _, [] => false
  | a :: as, b :: bs => a = b && startsWithChars as bs

/-- Whether needle occurs as a contiguous substring of the haystack. -/
def containsChars (needle : List Char) : List Char → Bool
  | [] => startsWithChars needle []
  | b :: bs => startsWithChars needle (b :: bs) || containsChars needle bs

/-! ## Helper lemmas -/

theorem pickLater_isSome (a : Option ScanRow) (r : ScanRow) :
    ∃ c, pickLater a r = some c := by
  cases a with
  | none => exact ⟨r, rfl⟩
  | some b =>
    by_cases h : b.scan_timestamp < r.scan_timestamp
    · exact ⟨r, by simp [pickLater, h]⟩
    · exact ⟨b, by simp [pickLater, h]⟩

theorem pickLater_cases (a : Option ScanRow) (x c : ScanRow)
    (h : pickLater a x = some c) :
    (c = x ∨ a = some c) ∧ x.scan_timestamp ≤ c.scan_timestamp ∧
    (∀ b, a = some b → b.scan_timestamp ≤ c.scan_timestamp) := by
  cases a with
  | none =>
    simp only [pickLater] at h
    cases h
    exact ⟨Or.inl rfl, le_refl _, by simp⟩
  | some b =>
    by_cases hlt : b.scan_timestamp < x.scan_timestamp
    · simp only [pickLater, if_pos hlt] at h
      cases h
      refine ⟨Or.inl rfl, le_refl _, ?_⟩
      intro b2 hb2
      cases hb2
      exact le_of_lt hlt
    · simp only [pickLater, if_neg hlt] at h
      cases h
      refine ⟨Or.inr rfl, le_of_not_lt hlt, ?_⟩
      intro b2 hb2
      cases hb2
      exact le_refl _

theorem foldl_pickLater_spec (l : List ScanRow) :
    ∀ (a : Option ScanRow) (r : ScanRow), l.foldl pickLater a = some r →
      (r ∈ l ∨ a = some r) ∧
      (∀ x ∈ l, x.scan_timestamp ≤ r.scan_timestamp) ∧
      (∀ b, a = some b → b.scan_timestamp ≤ r.scan_timestamp) := by
  induction l with
  | nil =>
    intro a r h
    simp only [List.foldl_nil] at h
    refine ⟨Or.inr h, by simp, ?_⟩
    intro b hb
    rw [hb] at h
    cases h
    exact le_refl _
  | cons x xs ih =>
    intro a r h
    simp only [List.foldl_cons] at h
    obtain ⟨hmem, hmax, hacc⟩ := ih (pickLater a x) r h
    obtain ⟨c, hc⟩ := pickLater_isSome a x
    obtain ⟨hcmem, hxc, hca⟩ := pickLater_cases a x c hc
    have hcr : c.scan_timestamp ≤ r.scan_timestamp := hacc c hc
    constructor
    · cases hmem with
      | inl hm => exact Or.inl (List.mem_cons_of_mem x hm)
      | inr hm =>
        rw [hc] at hm
        cases hm
        cases hcmem with
        | inl he => exact Or.inl (he ▸ List.mem_cons_self x xs)
        | inr he => exact Or.inr he
    · constructor
      · intro y hy
        rcases List.mem_cons.mp hy with hy1 | hy2
        · exact hy1 ▸ le_trans hxc hcr
        · exact hmax y hy2
      · intro b hb
        exact le_trans (hca b hb) hcr

theorem foldl_pickLater_eq_none (l : List ScanRow) :
    ∀ a, l.foldl pickLater a = none → l = [] ∧ a = none := by
  induction l with
  | nil =>
    intro a h
    exact ⟨rfl, by simpa using h⟩
  | cons x xs ih =>
    intro a h
    simp only [List.foldl_cons] at h
    obtain ⟨_, h2⟩ := ih _ h
    obtain ⟨c, hc⟩ := pickLater_isSome a x
    rw [hc] at h2
    cases h2

/-- The indexed descending limit-1 query returns a row of the partition
carrying the maximum sort key. -/
theorem queryLatest_spec (tbl : List ScanRow) (fid : String) (r : ScanRow)
    (h : queryLatest tbl fid = some r) :
    r ∈ tbl ∧ r.file_id = fid ∧
    ∀ x ∈ tbl, x.file_id = fid → x.scan_timestamp ≤ r.scan_timestamp := by
  unfold queryLatest at h
  obtain ⟨hmem, hmax, _⟩ := foldl_pickLater_spec _ _ _ h
  cases hmem with
  | inl hm =>
    have hm2 := List.mem_filter.mp hm
    refine ⟨hm2.1, by simpa using hm2.2, ?_⟩
    intro x hx hfx
    exact hmax x (List.mem_filter.mpr ⟨hx, by simpa using hfx⟩)
  | inr hm => cases hm

/-- If the query finds nothing, the partition is empty. -/
theorem queryLatest_eq_none (tbl : List ScanRow) (fid : String)
    (h : queryLatest tbl fid = none) :
    tbl.filter (fun r => r.file_id = fid) = [] := by
  unfold queryLatest at h
  exact (foldl_pickLater_eq_none _ _ h).1

theorem rowExtends_refl (r : ScanRow) : rowExtends r r :=
  ⟨rfl, rfl, [], by simp⟩

theorem rowExtends_trans {a b c : ScanRow}
    (h1 : rowExtends a b) (h2 : rowExtends b c) : rowExtends a c := by
  obtain ⟨k1, t1, u1, hu1⟩ := h1
  obtain ⟨k2, t2, u2, hu2⟩ := h2
  exact ⟨k2.trans k1, t2.trans t1, u1 ++ u2, by rw [hu2, hu1, List.append_assoc]⟩

theorem forall2_rowExtends_refl (l : List ScanRow) :
    List.Forall₂ rowExtends l l := by
  induction l with
  | nil => exact List.Forall₂.nil
  | cons x xs ih => exact List.Forall₂.cons (rowExtends_refl x) ih

theorem forall2_rowExtends_trans :
    ∀ {l1 l2 l3 : List ScanRow}, List.Forall₂ rowExtends l1 l2 →
      List.Forall₂ rowExtends l2 l3 → List.Forall₂ rowExtends l1 l3 := by
  intro l1 l2 l3 h1
  induction h1 generalizing l3 with
  | nil =>
    intro h2
    cases h2
    exact List.Forall₂.nil
  | cons hx _ ih =>
    intro h2
    cases h2 with
    | cons hy htl => exact List.Forall₂.cons (rowExtends_trans hx hy) (ih htl)

theorem forall2_map_self {g : ScanRow → ScanRow}
    (hg : ∀ r, rowExtends r (g r)) (tbl : List ScanRow) :
    List.Forall₂ rowExtends tbl (tbl.map g) := by
  induction tbl with
  | nil => exact List.Forall₂.nil
  | cons x xs ih =>
    simp only [List.map_cons]
    exact List.Forall₂.cons (hg x) ih

theorem updateRow_extends (tbl : List ScanRow) (fid : String) (ts : Nat)
    {f : ScanRow → ScanRow} (hf : ∀ r, rowExtends r (f r)) :
    List.Forall₂ rowExtends tbl (updateRow tbl fid ts f) := by
  unfold updateRow
  refine forall2_map_self ?_ tbl
  intro r
  by_cases h : r.file_id = fid ∧ r.scan_timestamp = ts
  · simpa [h] using hf r
  · simpa [h] using rowExtends_refl r

theorem append_event_extends (tbl : List ScanRow) (fid : String)
    (now : Nat) (msg : String) :
    List.Forall₂ rowExtends tbl (append_event tbl fid now msg) := by
  unfold append_event
  cases h : queryLatest tbl fid with
  | none => exact forall2_rowExtends_refl tbl
  | some item =>
    refine updateRow_extends tbl fid item.scan_timestamp ?_
    intro r
    exact ⟨rfl, rfl, [⟨now, msg⟩], rfl⟩

theorem writeVerdict_extends (tbl : List ScanRow) (fid : String)
    (now : Nat) (status detail stdout stderr : String) :
    List.Forall₂ rowExtends tbl (writeVerdict tbl fid now status detail stdout stderr) := by
  unfold writeVerdict
  cases h : queryLatest tbl fid with
  | none => exact forall2_rowExtends_refl tbl
  | some item =>
    refine updateRow_extends tbl fid item.scan_timestamp ?_
    intro r
    exact ⟨rfl, rfl, verdictEvents now status detail stdout stderr, rfl⟩

theorem applyOp_extends (tbl : List ScanRow) (op : LedgerOp) :
    List.Forall₂ rowExtends tbl (applyOp tbl op) := by
  cases op with
  | start fid now msg => exact append_event_extends tbl fid now msg
  | verdict fid now status detail stdout stderr =>
    exact writeVerdict_extends tbl fid now status detail stdout stderr

theorem applyOps_extends (ops : List LedgerOp) :
    ∀ tbl : List ScanRow, List.Forall₂ rowExtends tbl (applyOps tbl ops) := by
  induction ops with
  | nil => intro tbl; exact forall2_rowExtends_refl tbl
  | cons op ops ih =>
    intro tbl
    exact forall2_rowExtends_trans (applyOp_extends tbl op) (ih (applyOp tbl op))

theorem updateRow_status_map (tbl : List ScanRow) (fid : String) (ts : Nat)
    {f : ScanRow → ScanRow} (hf : ∀ r, (f r).scan_status = r.scan_status) :
    (updateRow tbl fid ts f).map ScanRow.scan_status = tbl.map ScanRow.scan_status := by
  induction tbl with
  | nil => rfl
  | cons x xs ih =>
    simp only [updateRow, List.map_cons] at *
    have hx : (if x.file_id = fid ∧ x.scan_timestamp = ts then f x else x).scan_status
        = x.scan_status := by
      by_cases h : x.file_id = fid ∧ x.scan_timestamp = ts
      · simp [h, hf x]
      · simp [h]
    rw [hx, ih]

/-- append_event only touches updated_at and scan_events: the status of
every row of the table is unchanged. -/
theorem append_event_status_map (tbl : List ScanRow) (fid : String)
    (now : Nat) (msg : String) :
    (append_event tbl fid now msg).map ScanRow.scan_status
      = tbl.map ScanRow.scan_status := by
  unfold append_event
  cases queryLatest tbl fid with
  | none => rfl
  | some item => exact updateRow_status_map tbl fid item.scan_timestamp (fun r => rfl)

/-- Every table the handler leaves behind for one record is obtained from
the incoming table by a sequence of the two append-style ledger writes. -/
theorem processRecord_ops (tbl : List ScanRow) (rec : RecordInput)
    (w : WorldOutcomes) (now : Nat) :
    ∃ ops, (processRecord tbl rec w now).1 = applyOps tbl ops := by
  obtain ⟨b, k⟩ := rec
  cases b with
  | none => exact ⟨[], rfl⟩
  | some bucket =>
    cases k with
    | none => exact ⟨[], rfl⟩
    | some key =>
      simp only [processRecord]
      by_cases hbk : bucket = "" ∨ key = ""
      · rw [if_pos hbk]; exact ⟨[], rfl⟩
      · rw [if_neg hbk]
        cases hp : parseKey key with
        | none =>
          cases w.download with
          | error e => exact ⟨[], rfl⟩
          | ok u =>
            cases w.freshclam with
            | error e => exact ⟨[], rfl⟩
            | ok u2 =>
              cases hc : run_clamscan w.clamscan with
              | error e => exact ⟨[], rfl⟩
              | ok q => obtain ⟨s, d, o, e2⟩ := q; exact ⟨[], rfl⟩
        | some pr =>
          obtain ⟨f, n⟩ := pr
          cases w.download with
          | error e => exact ⟨[], rfl⟩
          | ok u =>
            cases w.freshclam with
            | error e =>
              exact ⟨[.start f now "Lambda scanner started for this file.",
                      .start f now ("Failed to update ClamAV DB: " ++ e)], rfl⟩
            | ok u2 =>
              cases hc : run_clamscan w.clamscan with
              | error e =>
                exact ⟨[.start f now "Lambda scanner started for this file."], rfl⟩
              | ok q =>
                obtain ⟨s, d, o, e2⟩ := q
                exact ⟨[.start f now "Lambda scanner started for this file.",
                        .verdict f now s d o e2], rfl⟩

/-! ## Claim fixtures -/

/-- A record already carrying the terminal status CLEAN. -/
def rowClean : ScanRow :=
  { file_id := "f1", scan_timestamp := 0, file_name := "a.txt", s3_bucket := "b",
    s3_key := "uploads/f1/a.txt", scan_status := "CLEAN",
    scan_detail := "No malware detected by ClamAV.", scan_events := [],
    created_at := 0, updated_at := 0 }

/-- A record still in the initial PENDING state. -/
def rowPend : ScanRow :=
  { rowClean with scan_status := "PENDING",
                  scan_detail := "Waiting for Lambda scanner to run." }

/-- Older revision of object f7 (sort key 1), still PENDING. -/
def rowRev1 : ScanRow :=
  { rowPend with file_id := "f7", scan_timestamp := 1,
                 s3_key := "uploads/f7/a.txt" }

/-- Newer revision of object f7 (sort key 2), already CLEAN. -/
def rowRev2 : ScanRow :=
  { rowRev1 with scan_timestamp := 2, scan_status := "CLEAN",
                 scan_detail := "No malware detected by ClamAV." }

/-! ## Claims -/

/-- C1, counterexample.  The only record for f1 is already terminal
(CLEAN), yet processing a fresh notification for the same key performs
the download and the engine invocation and mutates the ledger — here the
engine exits 2 and the CLEAN status is even overwritten with ERROR.  The
claimed guard (no scan work, ledger unchanged) does not exist. -/
theorem C1_counterexample :
    Effect.engineInvoked ∈
      (processRecord [rowClean] ⟨some "b", some "uploads/f1/a.txt"⟩
        ⟨.ok (), .ok (), .ok ⟨2, "", ""⟩⟩ 5).2.2 ∧
    (processRecord [rowClean] ⟨some "b", some "uploads/f1/a.txt"⟩
        ⟨.ok (), .ok (), .ok ⟨2, "", ""⟩⟩ 5).1.map ScanRow.scan_status
      = ["ERROR"] := by
  decide

/-- C1, amended.  The handler evaluates no idempotency guard at all: the
scan work it attempts (download, freshclam, engine invocation) is a
function of the notification and the outside-world outcomes only, and is
entirely independent of the ledger contents — in particular a terminal
latest record cannot short-circuit anything. -/
theorem C1_amended (t1 t2 : List ScanRow) (rec : RecordInput)
    (w : WorldOutcomes) (now : Nat) :
    (processRecord t1 rec w now).2.2 = (processRecord t2 rec w now).2.2 := by
  obtain ⟨b, k⟩ := rec
  cases b with
  | none => rfl
  | some bucket =>
    cases k with
    | none => rfl
    | some key =>
      simp only [processRecord]
      by_cases hbk : bucket = "" ∨ key = ""
      · rw [if_pos hbk, if_pos hbk]
      · rw [if_neg hbk, if_neg hbk]
        cases w.download with
        | error e => rfl
        | ok u =>
          cases w.freshclam with
          | error e => rfl
          | ok u2 =>
            cases hc : run_clamscan w.clamscan with
            | error e => rfl
            | ok q => obtain ⟨s, d, o, e2⟩ := q; rfl

/-- C2, counterexample.  The key "not-matching.txt" does not match the
uploads/{file_id}/{file_name} convention, yet the object is still
downloaded and scanned, and the record is not dropped: a full result
entry (with null file_id) is produced.  Only the ledger write is skipped. -/
theorem C2_counterexample :
    processRecord [] ⟨some "b", some "not-matching.txt"⟩
        ⟨.ok (), .ok (), .ok ⟨0, "", ""⟩⟩ 5
      = ([], [.ok "b" "not-matching.txt" none none
               "CLEAN" "No malware detected by ClamAV."],
         [.download "b" "not-matching.txt", .freshclamRun, .engineInvoked]) := by
  decide

/-- C2, amended.  A notification whose key does not match the convention
is logged but not dropped: the object is still downloaded (and, when the
download succeeds, scanned); however, since file_id is None, no ledger
write of any kind occurs. -/
theorem C2_amended (tbl : List ScanRow) (bucket key : String)
    (w : WorldOutcomes) (now : Nat)
    (hb : bucket ≠ "") (hk : key ≠ "") (hp : parseKey key = none) :
    (processRecord tbl ⟨some bucket, some key⟩ w now).1 = tbl ∧
    Effect.download bucket key ∈
      (processRecord tbl ⟨some bucket, some key⟩ w now).2.2 := by
  have hbk : ¬ (bucket = "" ∨ key = "") := by simp [hb, hk]
  simp only [processRecord, if_neg hbk, hp]
  cases w.download with
  | error e => exact ⟨rfl, by simp⟩
  | ok u =>
    cases w.freshclam with
    | error e => exact ⟨rfl, by simp⟩
    | ok u2 =>
      cases hc : run_clamscan w.clamscan with
      | error e => exact ⟨rfl, by simp⟩
      | ok q => obtain ⟨s, d, o, e2⟩ := q; exact ⟨rfl, by simp⟩

/-- C2 witness: concrete instance of the amended claim. -/
theorem C2_amended_witness :
    (processRecord [] ⟨some "b", some "bad.txt"⟩
        ⟨.ok (), .ok (), .ok ⟨0, "", ""⟩⟩ 5).1 = [] ∧
    Effect.download "b" "bad.txt" ∈
      (processRecord [] ⟨some "b", some "bad.txt"⟩
        ⟨.ok (), .ok (), .ok ⟨0, "", ""⟩⟩ 5).2.2 :=
  C2_amended [] "b" "bad.txt" ⟨.ok (), .ok (), .ok ⟨0, "", ""⟩⟩ 5
    (by decide) (by decide) (by decide)

/-- C3, counterexample.  An execution failure of the engine (binary
absent or timeout: subprocess.run raises) does not yield the ERROR
verdict: the exception escapes run_clamscan, is caught by the per-record
handler, the results entry is a status-less error entry, and the ledger
record keeps its previous status (PENDING), so the claimed total
three-outcome mapping does not cover execution failures. -/
theorem C3_counterexample :
    (processRecord [rowPend] ⟨some "b", some "uploads/f1/a.txt"⟩
        ⟨.ok (), .ok (), .failure "No such file or directory: /opt/bin/clamscan"⟩
        5).2.1
      = [ResultEntry.err "No such file or directory: /opt/bin/clamscan"] ∧
    (processRecord [rowPend] ⟨some "b", some "uploads/f1/a.txt"⟩
        ⟨.ok (), .ok (), .failure "No such file or directory: /opt/bin/clamscan"⟩
        5).1.map ScanRow.scan_status = ["PENDING"] := by
  decide

/-- C3, amended.  The verdict mapping over engine exit codes is total
with exactly three outcomes (0 to CLEAN, 1 to INFECTED, anything else to
ERROR), but an execution failure does not map to ERROR: run_clamscan
propagates it as an exception instead of returning a verdict. -/
theorem C3_amended :
    (∀ rc : Int,
      ((clamVerdict rc).1 = "CLEAN" ∧ rc = 0) ∨
      ((clamVerdict rc).1 = "INFECTED" ∧ rc = 1) ∨
      ((clamVerdict rc).1 = "ERROR" ∧ rc ≠ 0 ∧ rc ≠ 1)) ∧
    (∀ m : String, run_clamscan (ExecOutcome.failure m) = Except.error m) := by
  constructor
  · intro rc
    by_cases h0 : rc = 0
    · exact Or.inl ⟨by simp [clamVerdict, h0], h0⟩
    · by_cases h1 : rc = 1
      · exact Or.inr (Or.inl ⟨by simp [clamVerdict, h0, h1], h1⟩)
      · exact Or.inr (Or.inr ⟨by simp [clamVerdict, h0, h1], h0, h1⟩)
  · intro m; rfl

/-- C4, counterexample.  On a download failure the handler writes
nothing: the ledger is returned unchanged with its record still PENDING
(not ERROR as claimed), the results entry is an error entry, and no
engine invocation is attempted. -/
theorem C4_counterexample :
    processRecord [rowPend] ⟨some "b", some "uploads/f1/a.txt"⟩
        ⟨.error "AccessDenied", .ok (), .ok ⟨0, "", ""⟩⟩ 5
      = ([rowPend], [.err "AccessDenied"],
         [.download "b" "uploads/f1/a.txt"]) := by
  decide

/-- C4, amended.  A download failure aborts the record before any ledger
access (so no engine invocation is attempted and the table is returned
untouched — the latest record keeps its prior status instead of turning
ERROR); an engine execution failure likewise produces only an error
results entry and leaves every record status unchanged. -/
theorem C4_amended :
    (∀ (tbl : List ScanRow) (bucket key e : String) (w : WorldOutcomes)
        (now : Nat), bucket ≠ "" → key ≠ "" → w.download = .error e →
      processRecord tbl ⟨some bucket, some key⟩ w now
        = (tbl, [.err e], [.download bucket key])) ∧
    (∀ (tbl : List ScanRow) (bucket key m : String) (now : Nat),
      bucket ≠ "" → key ≠ "" →
      (processRecord tbl ⟨some bucket, some key⟩
          ⟨.ok (), .ok (), .failure m⟩ now).2.1 = [.err m] ∧
      (processRecord tbl ⟨some bucket, some key⟩
          ⟨.ok (), .ok (), .failure m⟩ now).1.map ScanRow.scan_status
        = tbl.map ScanRow.scan_status) := by
  constructor
  · intro tbl bucket key e w now hb hk hd
    have hbk : ¬ (bucket = "" ∨ key = "") := by simp [hb, hk]
    simp only [processRecord, if_neg hbk, hd]
  · intro tbl bucket key m now hb hk
    have hbk : ¬ (bucket = "" ∨ key = "") := by simp [hb, hk]
    simp only [processRecord, if_neg hbk, run_clamscan]
    cases hp : parseKey key with
    | none => exact ⟨trivial, rfl⟩
    | some pr =>
      refine ⟨trivial, ?_⟩
      simp only [Option.map_some', maybeAppend]
      exact append_event_status_map tbl pr.1 now _

/-- C4 witness: concrete instances of both conjuncts of the amended claim. -/
theorem C4_amended_witness :
    processRecord [] ⟨some "b", some "uploads/f1/a.txt"⟩
        ⟨.error "boom", .ok (), .ok ⟨0, "", ""⟩⟩ 3
      = ([], [.err "boom"], [.download "b" "uploads/f1/a.txt"]) ∧
    ((processRecord [] ⟨some "b", some "uploads/f1/a.txt"⟩
        ⟨.ok (), .ok (), .failure "gone"⟩ 3).2.1 = [.err "gone"] ∧
     (processRecord [] ⟨some "b", some "uploads/f1/a.txt"⟩
        ⟨.ok (), .ok (), .failure "gone"⟩ 3).1.map ScanRow.scan_status
       = ([] : List ScanRow).map ScanRow.scan_status) :=
  ⟨C4_amended.1 [] "b" "uploads/f1/a.txt" "boom"
      ⟨.error "boom", .ok (), .ok ⟨0, "", ""⟩⟩ 3 (by decide) (by decide) rfl,
   C4_amended.2 [] "b" "uploads/f1/a.txt" "gone" 3 (by decide) (by decide)⟩

/-- C5, counterexample.  The engine exits 1 with a recognizable FOUND
line in its output, yet the recorded detail is the fixed generic string,
which does not contain the threat line (it does not even contain the
substring FOUND). -/
theorem C5_counterexample :
    run_clamscan (ExecOutcome.ok ⟨1, "/tmp/scan_input: Eicar-Signature FOUND", ""⟩)
      = Except.ok ("INFECTED", "Malware detected by ClamAV.",
                   "/tmp/scan_input: Eicar-Signature FOUND", "") ∧
    containsChars "FOUND".data "Malware detected by ClamAV.".data = false :=
  ⟨rfl, by decide⟩

/-- C5, amended.  Exit code 1 always yields the fixed generic detail
"Malware detected by ClamAV." regardless of the engine output; no threat
line is ever extracted into the detail (the raw stdout only reaches the
event log, truncated). -/
theorem C5_amended :
    (∀ out err : String,
      run_clamscan (ExecOutcome.ok ⟨1, out, err⟩)
        = Except.ok ("INFECTED", "Malware detected by ClamAV.", out, err)) ∧
    (∀ (tbl : List ScanRow) (bucket key fid name out err : String) (now : Nat),
      bucket ≠ "" → key ≠ "" → parseKey key = some (fid, name) →
      (processRecord tbl ⟨some bucket, some key⟩
          ⟨.ok (), .ok (), .ok ⟨1, out, err⟩⟩ now).2.1
        = [ResultEntry.ok bucket key (some fid) (some name)
            "INFECTED" "Malware detected by ClamAV."]) := by
  constructor
  · intro out err
    simp [run_clamscan, clamVerdict]
  · intro tbl bucket key fid name out err now hb hk hp
    have hbk : ¬ (bucket = "" ∨ key = "") := by simp [hb, hk]
    simp only [processRecord, if_neg hbk, hp, run_clamscan, clamVerdict]
    norm_num

/-- C5 witness: concrete instance of the amended claim. -/
theorem C5_amended_witness :
    (processRecord [] ⟨some "b", some "uploads/f1/a.txt"⟩
        ⟨.ok (), .ok (), .ok ⟨1, "x FOUND", ""⟩⟩ 4).2.1
      = [ResultEntry.ok "b" "uploads/f1/a.txt" (some "f1") (some "a.txt")
          "INFECTED" "Malware detected by ClamAV."] :=
  C5_amended.2 [] "b" "uploads/f1/a.txt" "f1" "a.txt" "x FOUND" "" 4
    (by decide) (by decide) (by decide)

/-- C6, counterexample.  The first (and only pre-engine) ledger mutation
of an executed job is the append_event call, after which the record's
status is still PENDING — never SCANNING; the full successful run then
jumps directly to the terminal verdict (here CLEAN), skipping SCANNING. -/
theorem C6_counterexample :
    (append_event [rowPend] "f1" 5
        "Lambda scanner started for this file.").map ScanRow.scan_status
      = ["PENDING"] ∧
    (processRecord [rowPend] ⟨some "b", some "uploads/f1/a.txt"⟩
        ⟨.ok (), .ok (), .ok ⟨0, "", ""⟩⟩ 5).1.map ScanRow.scan_status
      = ["CLEAN"] := by
  decide

/-- C6, amended.  The pre-engine mutation (append_event, the "scan
started" event) never changes any record's status — no SCANNING
transition exists — and the only statuses the verdict write can set are
the terminal CLEAN/INFECTED/ERROR, so a record's status moves directly
from PENDING to a terminal verdict. -/
theorem C6_amended :
    (∀ (tbl : List ScanRow) (fid : String) (now : Nat) (msg : String),
      (append_event tbl fid now msg).map ScanRow.scan_status
        = tbl.map ScanRow.scan_status) ∧
    (∀ rc : Int, (clamVerdict rc).1 = "CLEAN" ∨ (clamVerdict rc).1 = "INFECTED"
        ∨ (clamVerdict rc).1 = "ERROR") := by
  constructor
  · exact append_event_status_map
  · intro rc
    by_cases h0 : rc = 0
    · exact Or.inl (by simp [clamVerdict, h0])
    · by_cases h1 : rc = 1
      · exact Or.inr (Or.inl (by simp [clamVerdict, h0, h1]))
      · exact Or.inr (Or.inr (by simp [clamVerdict, h0, h1]))

/-- C7, counterexample.  Object f7 has two revisions (sort keys 1 and 2).
When the primary query path fails and the fallback scan path runs, the
code takes items[0] of the filtered scan, which here is the revision with
sort key 1 — not the one with the maximum revision_timestamp (2), which
also exists in the table. -/
theorem C7_counterexample :
    scanStatusLookup [rowRev1, rowRev2] "f7" true = some rowRev1 ∧
    rowRev2 ∈ [rowRev1, rowRev2] ∧ rowRev2.file_id = "f7" ∧
    rowRev1.scan_timestamp < rowRev2.scan_timestamp := by
  decide

/-- C7, amended.  On the primary indexed-query path the status lookup
does return the record with the maximum revision_timestamp among all
rows sharing the object_id; only the fallback full-scan path returns the
first matching row in storage order instead. -/
theorem C7_amended (tbl : List ScanRow) (fid : String) (r : ScanRow)
    (h : scanStatusLookup tbl fid false = some r) :
    r ∈ tbl ∧ r.file_id = fid ∧
    ∀ x ∈ tbl, x.file_id = fid → x.scan_timestamp ≤ r.scan_timestamp := by
  unfold scanStatusLookup at h
  cases hq : queryLatest tbl fid with
  | some q =>
    rw [hq] at h
    simp only [Option.toList_some, if_neg, List.isEmpty_cons,
      Bool.false_eq_true, not_false_eq_true, List.head?_cons,
      Option.some.injEq, reduceIte] at h
    exact h ▸ queryLatest_spec tbl fid q hq
  | none =>
    rw [hq] at h
    have hf := queryLatest_eq_none tbl fid hq
    simp [hf] at h

/-- C7 witness: on the two-revision table the primary path picks the
revision with the larger sort key. -/
theorem C7_amended_witness :
    rowRev2 ∈ [rowRev1, rowRev2] ∧ rowRev2.file_id = "f7" ∧
    ∀ x ∈ [rowRev1, rowRev2], x.file_id = "f7" →
      x.scan_timestamp ≤ rowRev2.scan_timestamp :=
  C7_amended [rowRev1, rowRev2] "f7" rowRev2 (by decide)

/-- C8, confirmed.  Both ledger mutations the Lambda performs
(append_event and the verdict update) use
list_append(if_not_exists(scan_events, :empty), :ev): under any sequence
of such operations every row keeps its key and its earlier scan_events
list as a prefix of the later one (append-only, no removal, no
reordering, no overwrite), and every table produced by processRecord is
obtained from the incoming table by such a sequence. -/
theorem C8_event_log_append_only :
    (∀ (tbl : List ScanRow) (ops : List LedgerOp),
      List.Forall₂ rowExtends tbl (applyOps tbl ops)) ∧
    (∀ (tbl : List ScanRow) (rec : RecordInput) (w : WorldOutcomes) (now : Nat),
      ∃ ops, (processRecord tbl rec w now).1 = applyOps tbl ops) :=
  ⟨fun tbl ops => applyOps_extends ops tbl, processRecord_ops⟩

/-- C9, counterexample.  A fully successful intake call performs the S3
upload first and only then writes the PENDING record: the effect trace
puts s3Upload strictly before putPending, contradicting the claim that
the PENDING record is written before the bytes are dispatched. -/
theorem C9_counterexample :
    (upload_file [] (some "b") (some "doc.txt") "f1" 7 ⟨true, true⟩).2.1
      = [UploadEffect.s3Upload "uploads/f1/doc.txt",
         UploadEffect.putPending "f1" 7] := by
  decide

/-- C9, amended.  In every execution of /api/upload the effect trace is
one of: nothing, the S3 upload alone, or the S3 upload followed by the
PENDING record write — the PENDING write never precedes the dispatch of
the bytes to storage, so a creation notification can fire before the
record exists. -/
theorem C9_amended (tbl : List ScanRow) (ub ff : Option String)
    (fid : String) (now : Nat) (o : UploadOutcome) :
    (upload_file tbl ub ff fid now o).2.1 = [] ∨
    (∃ k, (upload_file tbl ub ff fid now o).2.1 = [UploadEffect.s3Upload k]) ∨
    (∃ k, (upload_file tbl ub ff fid now o).2.1
        = [UploadEffect.s3Upload k, UploadEffect.putPending fid now]) := by
  cases ub with
  | none => exact Or.inl rfl
  | some bucket =>
    by_cases hb : bucket = ""
    · left
      simp [upload_file, hb]
    · cases ff with
      | none =>
        left
        simp [upload_file, hb]
      | some name =>
        by_cases hn : name = ""
        · left
          simp [upload_file, hb, hn]
        · by_cases hs : o.s3ok = false
          · refine Or.inr (Or.inl ⟨"uploads/" ++ fid ++ "/" ++ name, ?_⟩)
            simp [upload_file, hb, hn, hs]
          · by_cases hd : o.dbok = false
            · refine Or.inr (Or.inr ⟨"uploads/" ++ fid ++ "/" ++ name, ?_⟩)
              simp [upload_file, hb, hn, hs, hd]
            · refine Or.inr (Or.inr ⟨"uploads/" ++ fid ++ "/" ++ name, ?_⟩)
              simp [upload_file, hb, hn, hs, hd]

/-- C10, confirmed.  When the derived file_id has no ledger record, the
handler logs a warning and writes nothing: the table comes back
unchanged, while the results entry still carries the computed verdict
(the in-memory return value is the only place the verdict survives). -/
theorem C10_verdict_discarded (tbl : List ScanRow)
    (bucket key fid name : String) (r : EngineResult) (now : Nat)
    (hb : bucket ≠ "") (hk : key ≠ "") (hp : parseKey key = some (fid, name))
    (hq : queryLatest tbl fid = none) :
    processRecord tbl ⟨some bucket, some key⟩ ⟨.ok (), .ok (), .ok r⟩ now
      = (tbl,
         [ResultEntry.ok bucket key (some fid) (some name)
           (clamVerdict r.rc).1 (clamVerdict r.rc).2],
         [.download bucket key, .freshclamRun, .engineInvoked]) := by
  have hbk : ¬ (bucket = "" ∨ key = "") := by simp [hb, hk]
  have h1 : append_event tbl fid now "Lambda scanner started for this file." = tbl := by
    unfold append_event; rw [hq]
  have h2 : writeVerdict tbl fid now (clamVerdict r.rc).1 (clamVerdict r.rc).2
      r.stdout r.stderr = tbl := by
    unfold writeVerdict; rw [hq]
  simp only [processRecord, if_neg hbk, hp, run_clamscan, Option.map_some',
    maybeAppend, h1, h2]

/-- C10 witness: concrete instance on an empty table. -/
theorem C10_verdict_discarded_witness :
    processRecord [] ⟨some "b", some "uploads/f9/a.txt"⟩
        ⟨.ok (), .ok (), .ok ⟨0, "", ""⟩⟩ 6
      = ([],
         [ResultEntry.ok "b" "uploads/f9/a.txt" (some "f9") (some "a.txt")
           (clamVerdict 0).1 (clamVerdict 0).2],
         [.download "b" "uploads/f9/a.txt", .freshclamRun, .engineInvoked]) :=
  C10_verdict_discarded [] "b" "uploads/f9/a.txt" "f9" "a.txt" ⟨0, "", ""⟩ 6
    (by decide) (by decide) (by decide) rfl
